import Mathlib

/-!
# Verification of the Loan-Prediction web application core

This file gives a shallow embedding, in Lean 4, of the core logic of the
repository (src/app.py): the risk scorer `predict_loan_default`, the
`/predict` route validation, the registration flow, the forgot-password
flow, and the password-reset token service, together with theorems about
the claims of the specification.

Python float arithmetic is modelled as exact rational arithmetic over ℚ;
Python exceptions are modelled with `Option` (a raised exception inside a
`try` block is `none`).  A Python/JSON value is abstracted by `PyVal`:
what matters to the code is whether `float(v)` and `int(v)` succeed, which
rational they produce, and whether the value is falsy.
-/

namespace LoanApp

/-- Abstraction of a Python/JSON value, recording exactly the observations
the application makes of it: the result of `float(v)` (`none` when the
conversion raises), the result of `int(v)` (`none` when it raises), and
Python truthiness (`falsy = true` for `0`, `""`, `None`, `[]`, ...). -/
structure PyVal where
  toFloat : Option ℚ
  toInt : Option ℤ
  falsy : Bool
deriving DecidableEq, Repr

/-- A numeric Python value: `float(v)` and `int(v)` both succeed. -/
def PyVal.numeric (q : ℚ) (z : ℤ) : PyVal := ⟨some q, some z, false⟩

/-- A Python value on which both numeric conversions raise
(for example the string `"abc"`, `None`, or a list). -/
def PyVal.bad : PyVal := ⟨none, none, false⟩

/-- The dictionary handed to `predict_loan_default`: each of the eight
scoring keys is either absent (`none`) or mapped to a value. -/
structure LoanDict where
  loanAmount : Option PyVal
  annualIncome : Option PyVal
  interestRate : Option PyVal
  employmentLength : Option PyVal
  ficoScore : Option PyVal
  dti : Option PyVal
  openAccounts : Option PyVal
  term : Option PyVal
deriving DecidableEq, Repr

/-- The argument of `predict_loan_default`: a dictionary, or any
non-dictionary value (the code only tests `isinstance(input_data, dict)`). -/
inductive Input where
  | dict (d : LoanDict)
  | nonDict
deriving DecidableEq

/-- `float(input_data.get(key, dflt))`: the default when the key is absent,
otherwise the float conversion of the stored value (`none` = exception). -/
def extractFloat (v : Option PyVal) (dflt : ℚ) : Option ℚ :=
  match v with
  | none => some dflt
  | some pv => pv.toFloat

/-- `int(input_data.get(key, dflt))`. -/
def extractInt (v : Option PyVal) (dflt : ℤ) : Option ℤ :=
  match v with
  | none => some dflt
  | some pv => pv.toInt

/-- The unclamped weighted risk score of `predict_loan_default`
(src/app.py lines 237-252), in the order the code sums the terms. -/
def riskScoreRaw (la ai ir el fs dti oa : ℚ) : ℚ :=
  la / ai * (1/4) +
  (850 - fs) / 550 * (1/5) +
  min 1 (dti / 50) * (1/5) +
  ir / 30 * (3/20) +
  max 0 (1 - el / 10) * (1/10) +
  min 1 (oa / 20) * (1/10)

/-- `risk_score = max(0.1, min(0.9, risk_score))` (src/app.py line 255). -/
def clampRisk (x : ℚ) : ℚ := max (1/10) (min (9/10) x)

/-- `prediction = 1 if risk_score > 0.5 else 0` (src/app.py line 258). -/
def decisionOf (rs : ℚ) : ℕ := if rs > 1/2 then 1 else 0

/-- The risk label thresholds of src/app.py lines 261-266. -/
def riskLevelOf (rs : ℚ) : String :=
  if rs > 7/10 then "High" else if rs > 2/5 then "Medium" else "Low"

/-- The triple built from the extracted numeric values, after the clamp. -/
def computeTriple (la ai ir el fs dti oa : ℚ) : ℕ × ℚ × String :=
  let rs := clampRisk (riskScoreRaw la ai ir el fs dti oa)
  (decisionOf rs, rs, riskLevelOf rs)

/-- The body of the arithmetic part of `predict_loan_default`:
`loan_amount / annual_income` raises `ZeroDivisionError` when
`annual_income` is zero, which the enclosing `try` turns into `none`. -/
def tryCompute (la ai ir el fs dti oa : ℚ) : Option (ℕ × ℚ × String) :=
  if ai = 0 then none else some (computeTriple la ai ir el fs dti oa)

/-- The `try` block of `predict_loan_default` on a dictionary input
(src/app.py lines 216-270): the eight `float(...)`/`int(...)` extractions
in source order, then the formula.  Any conversion failure aborts. -/
def tryPredictDict (d : LoanDict) : Option (ℕ × ℚ × String) :=
  (extractFloat d.loanAmount 10000).bind fun la =>
  (extractFloat d.annualIncome 50000).bind fun ai =>
  (extractFloat d.interestRate (15/2)).bind fun ir =>
  (extractFloat d.employmentLength 5).bind fun el =>
  (extractFloat d.ficoScore 700).bind fun fs =>
  (extractFloat d.dti 25).bind fun dti =>
  (extractFloat d.openAccounts 5).bind fun oa =>
  (extractInt d.term 36).bind fun _ =>
  tryCompute la ai ir el fs dti oa

/-- The `try` block of `predict_loan_default` on an arbitrary input: a
non-dictionary gets the hard-coded defaults (src/app.py lines 225-234). -/
def tryPredict : Input → Option (ℕ × ℚ × String)
  | Input.dict d => tryPredictDict d
  | Input.nonDict => tryCompute 10000 50000 (15/2) 5 700 25 5

/-- `predict_loan_default` (src/app.py lines 210-275): the `try` block,
with the `except` clause returning the constant triple `(0, 0.3, "Low")`. -/
def predict_loan_default (i : Input) : ℕ × ℚ × String :=
  (tryPredict i).getD (0, 3/10, "Low")

/-!  ### The canonical formula, as written in the specification

These definitions follow the wording of §4.5 of the spec (and of claim C1)
rather than the source, so that claims comparing the code with the formula
are genuine refinement statements. -/

/-- The canonical risk score of the spec: `riskScore = Σ(factor × weight)`
with weights 0.25, 0.20, 0.20, 0.15, 0.10, 0.10, clamped to [0.1, 0.9]. -/
def canonicalRiskScore (loanAmount annualIncome interestRate employmentLength ficoScore dtiR openAccounts : ℚ) : ℚ :=
  let raw :=
    (25/100) * (loanAmount / annualIncome) +
    (20/100) * ((850 - ficoScore) / 550) +
    (20/100) * min 1 (dtiR / 50) +
    (15/100) * (interestRate / 30) +
    (10/100) * max 0 (1 - employmentLength / 10) +
    (10/100) * min 1 (openAccounts / 20)
  max (1/10) (min (9/10) raw)

/-- The spec's decision rule: `decision = 1 if riskScore > 0.5 else 0`. -/
def canonicalDecision (rs : ℚ) : ℕ := if rs > 5/10 then 1 else 0

/-- The spec's label rule: High above 0.7, Medium above 0.4, else Low. -/
def canonicalRiskLevel (rs : ℚ) : String :=
  if rs > 7/10 then "High" else if rs > 4/10 then "Medium" else "Low"

/-- The full spec-side triple for given attribute values. -/
def canonicalTriple (la ai ir el fs dtiR oa : ℚ) : ℕ × ℚ × String :=
  let rs := canonicalRiskScore la ai ir el fs dtiR oa
  (canonicalDecision rs, rs, canonicalRiskLevel rs)

/-!  ### The `/predict` route (src/app.py lines 406-443)

The route first rejects unauthenticated callers (the `@login_required`
decorator), then walks the required-field list in order, returning a 400
error naming the first field that is absent or falsy (`field not in data
or not data[field]`), and only then calls `predict_loan_default`. -/

/-- The observable outcomes of the `/predict` endpoint. -/
inductive PredictResponse where
  | unauthorized
  | badRequest (msg : String)
  | ok (prediction : ℕ) (probability : ℚ) (riskLevel : String)
deriving DecidableEq, Repr

/-- `field not in data or not data[field]` for one required field. -/
def fieldMissing (v : Option PyVal) : Bool :=
  match v with
  | none => true
  | some pv => pv.falsy

/-- The required-field loop of src/app.py lines 416-422, in source order:
LoanAmount, AnnualIncome, InterestRate, FicoScore. -/
def firstMissing (d : LoanDict) : Option String :=
  if fieldMissing d.loanAmount then some "LoanAmount"
  else if fieldMissing d.annualIncome then some "AnnualIncome"
  else if fieldMissing d.interestRate then some "InterestRate"
  else if fieldMissing d.ficoScore then some "FicoScore"
  else none

/-- The body of the authenticated `/predict` view on a JSON dictionary. -/
def predictRoute (d : LoanDict) : PredictResponse :=
  match firstMissing d with
  | some f => PredictResponse.badRequest ("Missing required field: " ++ f)
  | none =>
    let r := predict_loan_default (Input.dict d)
    PredictResponse.ok r.1 r.2.1 r.2.2

/-- The `/predict` endpoint including the `@login_required` decorator:
flask-login rejects the request before the view body runs when the
current identity is anonymous. -/
def predictEndpoint (authenticated : Bool) (d : LoanDict) : PredictResponse :=
  if authenticated then predictRoute d else PredictResponse.unauthorized

/-!  ### Credential store and registration (src/app.py lines 89-111, 310-349) -/

/-- A row of the `User` table (the fields the flows read). -/
structure UserRec where
  username : String
  email : String
  passwordHash : String
deriving DecidableEq, Repr

/-- `User.query_by_username` / `User.query_by_email`: first matching row. -/
def findByUsername (store : List UserRec) (username : String) : Option UserRec :=
  store.find? (fun u => u.username = username)

/-- Lookup by email, as `User.query.filter_by(email=email).first()`. -/
def findByEmail (store : List UserRec) (email : String) : Option UserRec :=
  store.find? (fun u => u.email = email)

/-- Outcome of one POST to `/register` with a validating form. -/
inductive RegResult where
  | success
  | usernameConflict
  | emailConflict
deriving DecidableEq, Repr

/-- The `register` view logic (src/app.py lines 317-345): check username
first, then email, else insert the new row and commit. -/
def register (store : List UserRec) (username email pwHash : String) :
    RegResult × List UserRec :=
  if (findByUsername store username).isSome then
    (RegResult.usernameConflict, store)
  else if (findByEmail store email).isSome then
    (RegResult.emailConflict, store)
  else
    (RegResult.success, store ++ [⟨username, email, pwHash⟩])

/-!  ### Forgot-password flow (src/app.py lines 120-165, 358-371)

The observable user-facing response of one POST to `/forgot-password` is
the list of flashed messages (the page template is the same either way).
`send_password_reset_email` flashes the reset link itself when mail is not
configured, a success notice when sending works, and an error notice with
the link when sending fails. -/

/-- The generic confirmation flashed unconditionally by `forgot_password`. -/
def genericResetMsg : String :=
  "If an account with that email exists, a password reset link has been sent."

/-- Flashes produced by `send_password_reset_email(user)` as a function of
whether mail is configured and whether `mail.send` succeeds. -/
def sendResetEmailFlashes (resetUrl : String) (mailConfigured sendOk : Bool) :
    List String :=
  if mailConfigured = false then
    ["Password reset link: " ++ resetUrl]
  else if sendOk then
    ["Password reset email has been sent!"]
  else
    ["Error sending email. Reset link: " ++ resetUrl]

/-- The flashed messages of one POST to `/forgot-password` with a
validating form (src/app.py lines 365-370): the generic confirmation,
then, only when the email is registered, the flashes of the mail helper. -/
def forgotPasswordFlashes (store : List UserRec) (email : String)
    (resetUrl : String) (mailConfigured sendOk : Bool) : List String :=
  genericResetMsg ::
    (match findByEmail store email with
     | none => []
     | some _ => sendResetEmailFlashes resetUrl mailConfigured sendOk)

/-!  ### Reset token service

`verify_reset_token` (src/app.py lines 167-171) and the token issuance in
`send_password_reset_email` (line 123) delegate the token mechanics to the
external library primitive `itsdangerous.URLSafeTimedSerializer`, whose
code is not part of this repository.  Following §4.4 of the spec, the
serializer is modelled concretely: a token deterministically derives from
`(email, timestamp)` signed with the server secret and a salt, the
timestamp is embedded so age is computable at verification, and
verification recomputes the signature, failing closed on any mismatch.

The model serializes everything into a decimal string followed by one
checksum digit.  The signature is the secret/salt code paired (by the
injective `Nat.pair`) with the payload, so signature checking is exact,
and the checksum digit makes every single-character corruption of a valid
token detectable — the model counterpart of the MAC of the library. -/

/-- One more than the largest `Char.toNat`, the base of the injective
string-to-number code used by the serializer model. -/
def charBase : ℕ := 1114113

/-- Injective code of a character list (base `charBase`, digits shifted by
one so that the code also determines the length). -/
def listEncode : List Char → ℕ
  | [] => 0
  | c :: cs => listEncode cs * charBase + (c.toNat + 1)

/-- Modelled from the spec: the serializer's payload encoding of an email
string (the library's base64 payload serialization, absent from src/). -/
def strEncode (s : String) : ℕ := listEncode s.data

/-- Inverse of `listEncode`. -/
def listDecode (n : ℕ) : List Char :=
  if h : n = 0 then []
  else Char.ofNat (n % charBase - 1) :: listDecode (n / charBase)
decreasing_by
  exact Nat.div_lt_self (Nat.pos_of_ne_zero h) (by norm_num [charBase])

/-- Modelled from the spec: payload deserialization back to the email. -/
def strDecode (n : ℕ) : String := ⟨listDecode n⟩

/-- The ten decimal digit characters. -/
def digitChars : List Char := ['0', '1', '2', '3', '4', '5', '6', '7', '8', '9']

/-- Whether a character is a decimal digit. -/
def isDigitC (c : Char) : Bool := decide (c ∈ digitChars)

/-- Numeric value of a digit character. -/
def charVal (c : Char) : ℕ := c.toNat - 48

/-- Checksum digit value of a digit string: sum of digit values mod 10. -/
def csum (l : List Char) : ℕ := (l.map charVal).sum % 10

/-- Big-endian decimal digit characters of a natural number. -/
def natBody (n : ℕ) : List Char :=
  ((Nat.digits 10 n).map Nat.digitChar).reverse

/-- The serialized token: the decimal body followed by its checksum digit. -/
def tokenChars (n : ℕ) : List Char :=
  natBody n ++ [Nat.digitChar (csum (natBody n))]

/-- Modelled from the spec: the signing key derived from the server secret
and the salt/context string (the library's key derivation, absent from
src/).  Strictly positive so that every signed token is nonzero. -/
def keyCode (secret salt : String) : ℕ :=
  Nat.pair (strEncode secret) (strEncode salt) + 1

/-- Modelled from the spec: `serializer.dumps(email, salt=...)` of the
`itsdangerous.URLSafeTimedSerializer`, which is external library code
absent from src/ — `issue(email)` deterministically derives a token from
`(email, currentTimestamp)` signed with the secret and the salt. -/
def serDumps (secret salt email : String) (ts : ℕ) : String :=
  ⟨tokenChars (Nat.pair (keyCode secret salt) (Nat.pair (strEncode email) ts))⟩

/-- Structural parse of a token string: a nonempty all-digit body with no
leading zero, whose trailing checksum digit matches.  Returns the signed
number.  Any malformed string is rejected. -/
def parseToken (t : String) : Option ℕ :=
  if h : t.data = [] then none
  else
    let body := t.data.dropLast
    let ck := t.data.getLast h
    if body ≠ [] ∧ body.all isDigitC = true ∧ body.head? ≠ some '0' ∧
        ck = Nat.digitChar (csum body) then
      some (Nat.ofDigits 10 (body.reverse.map charVal))
    else none

/-- Modelled from the spec: `serializer.loads(token, salt=..., max_age=...)`
of the external `itsdangerous` library, wrapped so that every failure is
`none` — recomputes and checks the signature, fails if the signature is
invalid or `now - embeddedTimestamp > maxAge`, then deserializes the
payload back to the email. -/
def serVerify (secret salt : String) (maxAge : ℕ) (token : String) (now : ℕ) :
    Option String :=
  match parseToken token with
  | none => none
  | some n =>
    if (Nat.unpair n).1 ≠ keyCode secret salt then none
    else if now - (Nat.unpair (Nat.unpair n).2).2 > maxAge then none
    else
      let ec := (Nat.unpair (Nat.unpair n).2).1
      if strEncode (strDecode ec) = ec then some (strDecode ec) else none

/-- `verify_reset_token(token, expiration=3600)` (src/app.py lines
167-171): `serializer.loads` with the fixed salt `'password-reset-salt'`
and a 3600-second window, `None` on any exception. -/
def verify_reset_token (secret : String) (token : String) (now : ℕ) :
    Option String :=
  serVerify secret "password-reset-salt" 3600 token now

/-- Token issuance as performed inside `send_password_reset_email`
(src/app.py line 123): `serializer.dumps(user.email, salt='password-reset-salt')`. -/
def issueResetToken (secret email : String) (ts : ℕ) : String :=
  serDumps secret "password-reset-salt" email ts

/-- Replacing the `i`-th character of a string (a one-character mutation
when the new character differs from the old one). -/
def strMutate (s : String) (i : ℕ) (c : Char) : String := ⟨s.data.set i c⟩

/-!  ### Helper lemmas: the string code and its inverse -/

theorem charToNat_lt (c : Char) : c.toNat < 1114112 := by
  rcases c.valid with h | ⟨_, h2⟩
  · exact Nat.lt_trans h (by norm_num)
  · exact h2

theorem listEncode_ne_zero (c : Char) (cs : List Char) :
    listEncode (c :: cs) ≠ 0 := by
  simp only [listEncode]
  omega

theorem listDecode_listEncode (l : List Char) : listDecode (listEncode l) = l := by
  induction l with
  | nil => rw [listEncode, listDecode]; simp
  | cons c cs ih =>
    have hc : c.toNat + 1 < charBase := by
      have := charToNat_lt c
      simp only [charBase]
      omega
    have hB : 0 < charBase := by norm_num [charBase]
    have hform : listEncode (c :: cs) = charBase * listEncode cs + (c.toNat + 1) := by
      rw [listEncode]; ring
    have hmod : listEncode (c :: cs) % charBase = c.toNat + 1 := by
      rw [hform, Nat.mul_add_mod]
      exact Nat.mod_eq_of_lt hc
    have hdiv : listEncode (c :: cs) / charBase = listEncode cs := by
      rw [hform, Nat.mul_add_div hB, Nat.div_eq_of_lt hc, Nat.add_zero]
    rw [listDecode, dif_neg (listEncode_ne_zero c cs), hmod, hdiv, ih]
    simp

theorem strDecode_strEncode (s : String) : strDecode (strEncode s) = s := by
  cases s with
  | mk data => simp [strDecode, strEncode, listDecode_listEncode]

/-!  ### Helper lemmas: decimal digits and the checksum -/

theorem digit_charVal_lt : ∀ c ∈ digitChars, charVal c < 10 := by decide

theorem digit_digitChar_charVal : ∀ c ∈ digitChars, Nat.digitChar (charVal c) = c := by decide

theorem digit_charVal_inj : ∀ c ∈ digitChars, ∀ c' ∈ digitChars,
    charVal c = charVal c' → c = c' := by decide

theorem digit_charVal_ne_zero : ∀ c ∈ digitChars, c ≠ '0' → charVal c ≠ 0 := by decide

theorem digitChar_mem_digitChars (d : ℕ) (hd : d < 10) :
    Nat.digitChar d ∈ digitChars := by
  interval_cases d <;> decide

theorem charVal_digitChar (d : ℕ) (hd : d < 10) : charVal (Nat.digitChar d) = d := by
  interval_cases d <;> decide

theorem digitChar_inj (a b : ℕ) (ha : a < 10) (hb : b < 10)
    (h : Nat.digitChar a = Nat.digitChar b) : a = b := by
  revert h
  interval_cases a <;> interval_cases b <;> decide

theorem digitChar_ne_zeroChar (d : ℕ) (hd : d < 10) (hd0 : d ≠ 0) :
    Nat.digitChar d ≠ '0' := by
  revert hd0
  interval_cases d <;> decide

theorem isDigitC_iff (c : Char) : isDigitC c = true ↔ c ∈ digitChars := by
  simp [isDigitC]

/-!  ### Helper lemmas: the decimal body of a token -/

theorem natBody_mem_digit (n : ℕ) : ∀ c ∈ natBody n, c ∈ digitChars := by
  intro c hc
  simp only [natBody, List.mem_reverse, List.mem_map] at hc
  obtain ⟨d, hd, rfl⟩ := hc
  exact digitChar_mem_digitChars d (Nat.digits_lt_base (by norm_num) hd)

theorem natBody_ne_nil (n : ℕ) (hn : n ≠ 0) : natBody n ≠ [] := by
  simp [natBody, Nat.digits_ne_nil_iff_ne_zero, hn]

theorem natBody_head?_ne_zero (n : ℕ) (hn : n ≠ 0) :
    (natBody n).head? ≠ some '0' := by
  have hld : Nat.digits 10 n ≠ [] := Nat.digits_ne_nil_iff_ne_zero.mpr hn
  have hmap : (Nat.digits 10 n).map Nat.digitChar ≠ [] := by simpa using hld
  rw [natBody, List.head?_reverse, List.getLast?_eq_getLast _ hmap,
    List.getLast_map _ _ hmap]
  intro h
  have hlast := Nat.getLast_digit_ne_zero 10 hn
  have hlt : (Nat.digits 10 n).getLast hld < 10 :=
    Nat.digits_lt_base (by norm_num) (List.getLast_mem hld)
  exact digitChar_ne_zeroChar _ hlt hlast (by simpa using h)

theorem map_charVal_digitChar (L : List ℕ) (hL : ∀ d ∈ L, d < 10) :
    List.map charVal (List.map Nat.digitChar L) = L := by
  induction L with
  | nil => rfl
  | cons d ds ih =>
    simp only [List.map_cons, List.cons.injEq]
    exact ⟨charVal_digitChar d (hL d (by simp)),
      ih fun x hx => hL x (by simp [hx])⟩

theorem decode_natBody (n : ℕ) :
    Nat.ofDigits 10 ((natBody n).reverse.map charVal) = n := by
  rw [natBody, List.reverse_reverse,
    map_charVal_digitChar _ (fun d hd => Nat.digits_lt_base (by norm_num) hd)]
  exact Nat.ofDigits_digits 10 n

theorem natBody_all_isDigitC (n : ℕ) : (natBody n).all isDigitC = true := by
  rw [List.all_eq_true]
  intro c hc
  exact (isDigitC_iff c).mpr (natBody_mem_digit n c hc)

/-!  ### Helper lemmas: parsing tokens -/

theorem tokenChars_ne_nil (n : ℕ) : tokenChars n ≠ [] := by
  simp [tokenChars]

theorem map_digitChar_charVal (l : List Char) (hl : ∀ c ∈ l, c ∈ digitChars) :
    List.map Nat.digitChar (List.map charVal l) = l := by
  induction l with
  | nil => rfl
  | cons c cs ih =>
    simp only [List.map_cons, List.cons.injEq]
    exact ⟨digit_digitChar_charVal c (hl c (by simp)),
      ih fun x hx => hl x (by simp [hx])⟩

theorem parseToken_tokenChars (n : ℕ) (hn : n ≠ 0) :
    parseToken ⟨tokenChars n⟩ = some n := by
  rw [parseToken, dif_neg (tokenChars_ne_nil n)]
  have hdrop : (tokenChars n).dropLast = natBody n := by
    simp [tokenChars]
  have hlast : (tokenChars n).getLast (tokenChars_ne_nil n) =
      Nat.digitChar (csum (natBody n)) := by
    simp only [tokenChars]
    exact List.getLast_concat _
  rw [if_pos]
  · rw [hdrop, decode_natBody]
  · rw [hdrop, hlast]
    exact ⟨natBody_ne_nil n hn, natBody_all_isDigitC n,
      natBody_head?_ne_zero n hn, rfl⟩

theorem parseToken_sound (t : String) (n : ℕ) (h : parseToken t = some n) :
    n ≠ 0 ∧ t.data = tokenChars n := by
  rw [parseToken] at h
  by_cases hnil : t.data = []
  · rw [dif_pos hnil] at h; exact absurd h (by simp)
  rw [dif_neg hnil] at h
  by_cases hcond : t.data.dropLast ≠ [] ∧ t.data.dropLast.all isDigitC = true ∧
      t.data.dropLast.head? ≠ some '0' ∧
      t.data.getLast hnil = Nat.digitChar (csum t.data.dropLast)
  swap
  · rw [if_neg hcond] at h; exact absurd h (by simp)
  rw [if_pos hcond] at h
  obtain ⟨hbne, hdig, hhead, hck⟩ := hcond
  have hmem : ∀ c ∈ t.data.dropLast, c ∈ digitChars := fun c hc =>
    (isDigitC_iff c).mp (List.all_eq_true.mp hdig c hc)
  have hn : n = Nat.ofDigits 10 (t.data.dropLast.reverse.map charVal) := by
    simpa using h.symm
  have hrevne : t.data.dropLast.reverse ≠ [] := by simpa using hbne
  have hLne : t.data.dropLast.reverse.map charVal ≠ [] := fun hx =>
    hrevne (List.map_eq_nil_iff.mp hx)
  have hL1 : ∀ d ∈ t.data.dropLast.reverse.map charVal, d < 10 := by
    intro d hd
    simp only [List.mem_map, List.mem_reverse] at hd
    obtain ⟨c, hc, rfl⟩ := hd
    exact digit_charVal_lt c (hmem c hc)
  have hL2 : ∀ hx : t.data.dropLast.reverse.map charVal ≠ [],
      (t.data.dropLast.reverse.map charVal).getLast hx ≠ 0 := by
    intro hx
    simp only [List.getLast_map, List.getLast_reverse]
    have hhd : t.data.dropLast.head hbne ∈ digitChars := hmem _ (List.head_mem hbne)
    apply digit_charVal_ne_zero _ hhd
    intro heq
    rw [List.head?_eq_head hbne, heq] at hhead
    exact hhead rfl
  have hdigits : Nat.digits 10 n = t.data.dropLast.reverse.map charVal := by
    rw [hn]
    exact Nat.digits_ofDigits 10 (by norm_num) _ hL1 hL2
  have hn0 : n ≠ 0 := by
    rw [← Nat.digits_ne_nil_iff_ne_zero (b := 10), hdigits]
    exact hLne
  refine ⟨hn0, ?_⟩
  have hnatBody : natBody n = t.data.dropLast := by
    rw [natBody, hdigits]
    rw [map_digitChar_charVal t.data.dropLast.reverse
      (fun c hc => hmem c (List.mem_reverse.mp hc))]
    exact List.reverse_reverse _
  have hsplit : t.data = t.data.dropLast ++ [t.data.getLast hnil] :=
    (List.dropLast_concat_getLast hnil).symm
  rw [tokenChars, hnatBody, ← hck]
  exact hsplit

/-!  ### Helper lemmas: one-character mutations break the checksum -/

theorem list_set_getElem_self {α : Type} (l : List α) (i : ℕ) (hi : i < l.length) :
    l.set i l[i] = l := by
  induction l generalizing i with
  | nil => simp at hi
  | cons a rest ih =>
    cases i with
    | zero => simp
    | succ j =>
      simp [ih j (by simpa using hi)]

theorem sum_set_add (m : List ℕ) (j : ℕ) (v : ℕ) (hj : j < m.length) :
    (m.set j v).sum + m[j] = m.sum + v := by
  induction m generalizing j with
  | nil => simp at hj
  | cons d rest ih =>
    cases j with
    | zero => simp [List.sum_cons]; omega
    | succ j' =>
      simp only [List.set_cons_succ, List.sum_cons, List.getElem_cons_succ]
      have := ih j' (by simpa using hj)
      omega

theorem csum_lt (l : List Char) : csum l < 10 := Nat.mod_lt _ (by norm_num)

theorem csum_set_ne (body : List Char) (j : ℕ) (c : Char) (hj : j < body.length)
    (hc : c ∈ digitChars) (hb : ∀ x ∈ body, x ∈ digitChars) (hne : c ≠ body[j]) :
    csum (body.set j c) ≠ csum body := by
  have hmap : (body.map charVal).set j (charVal c) = (body.set j c).map charVal :=
    List.set_map
  have hjm : j < (body.map charVal).length := by simpa using hj
  have hsum := sum_set_add (body.map charVal) j (charVal c) hjm
  have hgm : (body.map charVal)[j] = charVal body[j] := List.getElem_map _
  have hvlt : charVal c < 10 := digit_charVal_lt c hc
  have hjlt : charVal body[j] < 10 :=
    digit_charVal_lt _ (hb _ (List.getElem_mem hj))
  have hvne : charVal c ≠ charVal body[j] := fun hcv =>
    hne (digit_charVal_inj c hc _ (hb _ (List.getElem_mem hj)) hcv)
  simp only [csum, ← hmap]
  rw [hgm] at hsum
  omega

theorem getLast_eq_of_concat {α : Type} (l l₁ : List α) (x : α) (h : l ≠ [])
    (heq : l = l₁ ++ [x]) : l.getLast h = x := by
  subst heq
  exact List.getLast_concat _

theorem parseToken_mutate_eq_none (n : ℕ) (hn : n ≠ 0) (i : ℕ) (c : Char)
    (hne : (tokenChars n).set i c ≠ tokenChars n) :
    parseToken ⟨(tokenChars n).set i c⟩ = none := by
  have hlen : (tokenChars n).length = (natBody n).length + 1 := by
    simp [tokenChars]
  rcases lt_trichotomy i (natBody n).length with hi | hi | hi
  · -- mutation inside the decimal body
    have hset : (tokenChars n).set i c = (natBody n).set i c ++
        [Nat.digitChar (csum (natBody n))] := by
      rw [tokenChars]
      exact List.set_append_left i c hi
    have hcne : c ≠ (natBody n)[i] := by
      intro hc
      apply hne
      rw [hset, hc, list_set_getElem_self _ _ hi, tokenChars]
    have hne2 : ((natBody n).set i c) ≠ [] := by
      simp only [ne_eq, List.set_eq_nil_iff]
      exact natBody_ne_nil n hn
    have hsetne : (natBody n).set i c ++ [Nat.digitChar (csum (natBody n))] ≠ [] := by
      simp
    rw [parseToken, dif_neg (by rw [hset]; exact hsetne)]
    rw [if_neg]
    intro hcond
    obtain ⟨h1, h2, h3, h4⟩ := hcond
    have hdrop : ((tokenChars n).set i c).dropLast = (natBody n).set i c := by
      rw [hset]; exact List.dropLast_concat
    by_cases hcd : c ∈ digitChars
    · -- the checksum digit no longer matches
      have hlast := getLast_eq_of_concat _ _ _
        (hset ▸ hsetne) hset
      rw [hdrop] at h4
      rw [hlast] at h4
      have hcsne : csum ((natBody n).set i c) ≠ csum (natBody n) :=
        csum_set_ne (natBody n) i c hi hcd (natBody_mem_digit n) hcne
      exact hcsne (digitChar_inj _ _ (csum_lt _) (csum_lt _) h4.symm)
    · -- the mutated character is not a digit
      rw [hdrop] at h2
      have hilen : i < ((natBody n).set i c).length := by simpa using hi
      have hgc : ((natBody n).set i c)[i] = c := List.getElem_set_self hilen
      have hcmem : c ∈ (natBody n).set i c := by
        nth_rewrite 2 [← hgc]
        exact List.getElem_mem hilen
      have := (isDigitC_iff c).mp (List.all_eq_true.mp h2 c hcmem)
      exact hcd this
  · -- mutation of the trailing checksum character
    have hset : (tokenChars n).set i c = natBody n ++ [c] := by
      rw [tokenChars, List.set_append_right _ _ (le_of_eq hi.symm), hi]
      simp
    have hcne : c ≠ Nat.digitChar (csum (natBody n)) := by
      intro hc
      apply hne
      rw [hset, hc, tokenChars]
    rw [parseToken, dif_neg (by rw [hset]; simp)]
    rw [if_neg]
    intro hcond
    obtain ⟨h1, h2, h3, h4⟩ := hcond
    have hdrop : ((tokenChars n).set i c).dropLast = natBody n := by
      rw [hset]; exact List.dropLast_concat
    have hlast := getLast_eq_of_concat ((tokenChars n).set i c) (natBody n) c
      (by rw [hset]; simp) hset
    rw [hlast, hdrop] at h4
    exact hcne h4
  · -- index past the end: no mutation at all, contradiction
    exfalso
    apply hne
    apply List.set_eq_of_length_le
    omega

/-!  ### Helper lemmas: the serializer round trip and fail-closed behavior -/

theorem serDumps_code_ne_zero (secret salt email : String) (ts : ℕ) :
    Nat.pair (keyCode secret salt) (Nat.pair (strEncode email) ts) ≠ 0 := by
  have h1 : 1 ≤ keyCode secret salt := by unfold keyCode; omega
  have h2 := Nat.left_le_pair (keyCode secret salt) (Nat.pair (strEncode email) ts)
  omega

theorem serVerify_serDumps (secret salt email : String) (ts now maxAge : ℕ)
    (hage : now - ts ≤ maxAge) :
    serVerify secret salt maxAge (serDumps secret salt email ts) now = some email := by
  rw [serVerify, serDumps,
    parseToken_tokenChars _ (serDumps_code_ne_zero secret salt email ts)]
  simp [Nat.unpair_pair, Nat.not_lt.mpr hage, strDecode_strEncode]

theorem serVerify_sound (secret salt : String) (maxAge : ℕ) (t : String) (now : ℕ)
    (e : String) (h : serVerify secret salt maxAge t now = some e) :
    ∃ ts, t = serDumps secret salt e ts ∧ now - ts ≤ maxAge := by
  rw [serVerify] at h
  cases hp : parseToken t with
  | none => rw [hp] at h; exact absurd h (by simp)
  | some n =>
    rw [hp] at h
    dsimp only at h
    by_cases h1 : (Nat.unpair n).1 ≠ keyCode secret salt
    · rw [if_pos h1] at h; exact absurd h (by simp)
    rw [if_neg h1] at h
    push_neg at h1
    by_cases h2 : now - (Nat.unpair (Nat.unpair n).2).2 > maxAge
    · rw [if_pos h2] at h; exact absurd h (by simp)
    rw [if_neg h2] at h
    by_cases h3 : strEncode (strDecode (Nat.unpair (Nat.unpair n).2).1) =
        (Nat.unpair (Nat.unpair n).2).1
    swap
    · rw [if_neg h3] at h; exact absurd h (by simp)
    rw [if_pos h3] at h
    have he : e = strDecode (Nat.unpair (Nat.unpair n).2).1 := by
      simpa using h.symm
    obtain ⟨hn0, hdata⟩ := parseToken_sound t n hp
    refine ⟨(Nat.unpair (Nat.unpair n).2).2, ?_, by omega⟩
    have hpair : Nat.pair (keyCode secret salt)
        (Nat.pair (strEncode e) (Nat.unpair (Nat.unpair n).2).2) = n := by
      rw [he, h3, Nat.pair_unpair, ← h1, Nat.pair_unpair]
    cases t with
    | mk l =>
      rw [serDumps, hpair]
      exact congrArg String.mk hdata

theorem serVerify_mutate (secret salt email : String) (ts now maxAge : ℕ)
    (i : ℕ) (c : Char)
    (hne : strMutate (serDumps secret salt email ts) i c ≠
      serDumps secret salt email ts) :
    serVerify secret salt maxAge (strMutate (serDumps secret salt email ts) i c)
      now = none := by
  have hn0 := serDumps_code_ne_zero secret salt email ts
  have hlist : (tokenChars (Nat.pair (keyCode secret salt)
        (Nat.pair (strEncode email) ts))).set i c ≠
      tokenChars (Nat.pair (keyCode secret salt) (Nat.pair (strEncode email) ts)) := by
    intro hx
    apply hne
    show (⟨(tokenChars _).set i c⟩ : String) = ⟨tokenChars _⟩
    rw [hx]
  have hparse : parseToken (strMutate (serDumps secret salt email ts) i c) = none :=
    parseToken_mutate_eq_none _ hn0 i c hlist
  rw [serVerify, hparse]

theorem serVerify_expired (secret salt email : String) (ts now maxAge : ℕ)
    (h : now - ts > maxAge) :
    serVerify secret salt maxAge (serDumps secret salt email ts) now = none := by
  rw [serVerify, serDumps,
    parseToken_tokenChars _ (serDumps_code_ne_zero secret salt email ts)]
  simp [Nat.unpair_pair, h]

/-!  ### Helper lemmas: the scorer -/

theorem computeTriple_eq_canonical (la ai ir el fs dt oa : ℚ) :
    computeTriple la ai ir el fs dt oa = canonicalTriple la ai ir el fs dt oa := by
  have hraw : riskScoreRaw la ai ir el fs dt oa =
      (25/100) * (la / ai) + (20/100) * ((850 - fs) / 550) +
      (20/100) * min 1 (dt / 50) + (15/100) * (ir / 30) +
      (10/100) * max 0 (1 - el / 10) + (10/100) * min 1 (oa / 20) := by
    rw [riskScoreRaw]; ring
  have h12 : (5/10 : ℚ) = 1/2 := by norm_num
  have h25 : (4/10 : ℚ) = 2/5 := by norm_num
  simp only [computeTriple, canonicalTriple, clampRisk, canonicalRiskScore,
    canonicalDecision, decisionOf, canonicalRiskLevel, riskLevelOf, hraw, h12, h25]

theorem predict_extract_eq (d : LoanDict) (la ai ir el fs dt oa : ℚ) (tv : ℤ)
    (e1 : extractFloat d.loanAmount 10000 = some la)
    (e2 : extractFloat d.annualIncome 50000 = some ai)
    (e3 : extractFloat d.interestRate (15/2) = some ir)
    (e4 : extractFloat d.employmentLength 5 = some el)
    (e5 : extractFloat d.ficoScore 700 = some fs)
    (e6 : extractFloat d.dti 25 = some dt)
    (e7 : extractFloat d.openAccounts 5 = some oa)
    (e8 : extractInt d.term 36 = some tv)
    (hai : ai ≠ 0) :
    predict_loan_default (Input.dict d) = canonicalTriple la ai ir el fs dt oa := by
  rw [predict_loan_default]
  simp only [tryPredict, tryPredictDict, e1, e2, e3, e4, e5, e6, e7, e8,
    Option.some_bind]
  rw [tryCompute, if_neg hai]
  simp only [Option.getD_some]
  exact computeTriple_eq_canonical la ai ir el fs dt oa

theorem optionBind_none {α β : Type} (o : Option α) (f : α → Option β)
    (hf : ∀ a, f a = none) : o.bind f = none := by
  cases o with
  | none => rfl
  | some a => exact hf a

theorem tryPredictDict_ai_zero (d : LoanDict)
    (hza : extractFloat d.annualIncome 50000 = some 0) :
    tryPredictDict d = none := by
  rw [tryPredictDict, hza]
  apply optionBind_none; intro la
  rw [Option.some_bind]
  apply optionBind_none; intro ir
  apply optionBind_none; intro el
  apply optionBind_none; intro fs
  apply optionBind_none; intro dt
  apply optionBind_none; intro oa
  apply optionBind_none; intro tv
  rw [tryCompute, if_pos rfl]

theorem computeTriple_post (la ai ir el fs dt oa : ℚ) :
    ((computeTriple la ai ir el fs dt oa).1 = 0 ∨
      (computeTriple la ai ir el fs dt oa).1 = 1) ∧
    1/10 ≤ (computeTriple la ai ir el fs dt oa).2.1 ∧
    (computeTriple la ai ir el fs dt oa).2.1 ≤ 9/10 ∧
    ((computeTriple la ai ir el fs dt oa).2.2 = "Low" ∨
      (computeTriple la ai ir el fs dt oa).2.2 = "Medium" ∨
      (computeTriple la ai ir el fs dt oa).2.2 = "High") := by
  simp only [computeTriple, clampRisk, decisionOf, riskLevelOf]
  refine ⟨?_, ?_, ?_, ?_⟩
  · split_ifs <;> simp
  · exact le_max_left _ _
  · exact max_le (by norm_num) (min_le_left _ _)
  · split_ifs <;> simp

theorem tryPredict_some (i : Input) (v : ℕ × ℚ × String)
    (h : tryPredict i = some v) :
    ∃ la ai ir el fs dt oa, v = computeTriple la ai ir el fs dt oa := by
  have hcomp : ∀ (la ai ir el fs dt oa : ℚ),
      tryCompute la ai ir el fs dt oa = some v →
      ∃ la2 ai2 ir2 el2 fs2 dt2 oa2, v = computeTriple la2 ai2 ir2 el2 fs2 dt2 oa2 := by
    intro la ai ir el fs dt oa hc
    rw [tryCompute] at hc
    by_cases hz : ai = 0
    · rw [if_pos hz] at hc; exact absurd hc (by simp)
    · rw [if_neg hz] at hc
      exact ⟨la, ai, ir, el, fs, dt, oa, (Option.some.injEq _ _ ▸ hc).symm⟩
  cases i with
  | nonDict => exact hcomp _ _ _ _ _ _ _ h
  | dict d =>
    rw [tryPredict, tryPredictDict] at h
    rcases hx1 : extractFloat d.loanAmount 10000 with _ | la <;> rw [hx1] at h
    · exact absurd h (by simp)
    rw [Option.some_bind] at h
    rcases hx2 : extractFloat d.annualIncome 50000 with _ | ai <;> rw [hx2] at h
    · exact absurd h (by simp)
    rw [Option.some_bind] at h
    rcases hx3 : extractFloat d.interestRate (15/2) with _ | ir <;> rw [hx3] at h
    · exact absurd h (by simp)
    rw [Option.some_bind] at h
    rcases hx4 : extractFloat d.employmentLength 5 with _ | el <;> rw [hx4] at h
    · exact absurd h (by simp)
    rw [Option.some_bind] at h
    rcases hx5 : extractFloat d.ficoScore 700 with _ | fs <;> rw [hx5] at h
    · exact absurd h (by simp)
    rw [Option.some_bind] at h
    rcases hx6 : extractFloat d.dti 25 with _ | dt <;> rw [hx6] at h
    · exact absurd h (by simp)
    rw [Option.some_bind] at h
    rcases hx7 : extractFloat d.openAccounts 5 with _ | oa <;> rw [hx7] at h
    · exact absurd h (by simp)
    rw [Option.some_bind] at h
    rcases hx8 : extractInt d.term 36 with _ | tv <;> rw [hx8] at h
    · exact absurd h (by simp)
    rw [Option.some_bind] at h
    exact hcomp _ _ _ _ _ _ _ h

/-!  ## Claim theorems -/

/-- C1: For every input dictionary whose eight fields (LoanAmount,
AnnualIncome, InterestRate, EmploymentLength, FicoScore,
DebtToIncomeRatio, OpenAccounts, Term) are present and numeric with
AnnualIncome nonzero, `predict_loan_default` returns the triple given by
the canonical formula of the spec: the weighted sum with weights
0.25/0.20/0.20/0.15/0.10/0.10 clamped to [0.1, 0.9], decision 1 iff the
score exceeds 0.5, and the High/Medium/Low thresholds 0.7 and 0.4. -/
theorem C1_formula_correct (d : LoanDict)
    (vla vai vir vel vfs vdt voa vtm : PyVal)
    (la ai ir el fs dt oa : ℚ) (tv : ℤ)
    (p1 : d.loanAmount = some vla) (q1 : vla.toFloat = some la)
    (p2 : d.annualIncome = some vai) (q2 : vai.toFloat = some ai)
    (p3 : d.interestRate = some vir) (q3 : vir.toFloat = some ir)
    (p4 : d.employmentLength = some vel) (q4 : vel.toFloat = some el)
    (p5 : d.ficoScore = some vfs) (q5 : vfs.toFloat = some fs)
    (p6 : d.dti = some vdt) (q6 : vdt.toFloat = some dt)
    (p7 : d.openAccounts = some voa) (q7 : voa.toFloat = some oa)
    (p8 : d.term = some vtm) (q8 : vtm.toInt = some tv)
    (hai : ai ≠ 0) :
    predict_loan_default (Input.dict d) = canonicalTriple la ai ir el fs dt oa := by
  apply predict_extract_eq d la ai ir el fs dt oa tv
  · rw [p1]; exact q1
  · rw [p2]; exact q2
  · rw [p3]; exact q3
  · rw [p4]; exact q4
  · rw [p5]; exact q5
  · rw [p6]; exact q6
  · rw [p7]; exact q7
  · rw [p8]; exact q8
  · exact hai

/-- Witness for C1 at the spec's determinism fixture: all eight fields
present and numeric, AnnualIncome = 50000 ≠ 0. -/
theorem C1_formula_correct_witness :
    (50000 : ℚ) ≠ 0 ∧
    predict_loan_default (Input.dict ⟨some (PyVal.numeric 10000 10000),
        some (PyVal.numeric 50000 50000), some (PyVal.numeric (15/2) 7),
        some (PyVal.numeric 5 5), some (PyVal.numeric 700 700),
        some (PyVal.numeric 25 25), some (PyVal.numeric 5 5),
        some (PyVal.numeric 36 36)⟩) =
      canonicalTriple 10000 50000 (15/2) 5 700 25 5 :=
  ⟨by norm_num,
    C1_formula_correct _ _ _ _ _ _ _ _ _ 10000 50000 (15/2) 5 700 25 5 36
      rfl rfl rfl rfl rfl rfl rfl rfl rfl rfl rfl rfl rfl rfl rfl rfl
      (by norm_num)⟩

/-- C2 counterexample: the claim asserts that a field that is present but
non-numeric is replaced by its documented default and the formula is
computed over the substituted values.  On the dictionary whose LoanAmount
is a non-numeric value (all other keys absent), the code instead hits the
`except` clause of `predict_loan_default` and returns the constant triple
(0, 0.3, "Low"), which differs from the formula value over the
substituted defaults (whose probability is 279/880 ≈ 0.317). -/
theorem C2_counterexample :
    predict_loan_default (Input.dict
        ⟨some PyVal.bad, none, none, none, none, none, none, none⟩) =
      (0, 3/10, "Low") ∧
    canonicalTriple 10000 50000 (15/2) 5 700 25 5 ≠ (0, 3/10, "Low") := by
  constructor
  · rfl
  · intro hEq
    simp only [canonicalTriple, canonicalRiskScore, Prod.mk.injEq] at hEq
    norm_num [min_def, max_def] at hEq

/-- C2 (amended): when a scoring field is absent, `predict_loan_default`
substitutes the documented default for that field (loanAmount=10000,
annualIncome=50000, interestRate=7.5, employmentLength=5, ficoScore=700,
debtToIncomeRatio=25.0, openAccounts=5, term=36) and computes the formula
over the substituted values, provided every present field converts
(a present non-numeric field instead triggers the exception fallback,
see C10) and the effective annual income is nonzero. -/
theorem C2_default_substitution (d : LoanDict) (la ai ir el fs dt oa : ℚ) (tv : ℤ)
    (e1 : extractFloat d.loanAmount 10000 = some la)
    (e2 : extractFloat d.annualIncome 50000 = some ai)
    (e3 : extractFloat d.interestRate (15/2) = some ir)
    (e4 : extractFloat d.employmentLength 5 = some el)
    (e5 : extractFloat d.ficoScore 700 = some fs)
    (e6 : extractFloat d.dti 25 = some dt)
    (e7 : extractFloat d.openAccounts 5 = some oa)
    (e8 : extractInt d.term 36 = some tv)
    (hai : ai ≠ 0) :
    predict_loan_default (Input.dict d) = canonicalTriple la ai ir el fs dt oa :=
  predict_extract_eq d la ai ir el fs dt oa tv e1 e2 e3 e4 e5 e6 e7 e8 hai

/-- Witness for C2 (amended): seven fields absent (defaults substituted),
FicoScore present and numeric. -/
theorem C2_default_substitution_witness :
    (50000 : ℚ) ≠ 0 ∧
    predict_loan_default (Input.dict ⟨none, none, none, none,
        some (PyVal.numeric 600 600), none, none, none⟩) =
      canonicalTriple 10000 50000 (15/2) 5 600 25 5 :=
  ⟨by norm_num,
    C2_default_substitution _ 10000 50000 (15/2) 5 600 25 5 36
      rfl rfl rfl rfl rfl rfl rfl rfl (by norm_num)⟩

/-- C9: Total postcondition — for every input whatsoever (a dictionary
with arbitrary, possibly malformed values, or a non-dictionary),
`predict_loan_default` returns a triple whose decision is 0 or 1, whose
probability lies in [0.1, 0.9], and whose risk level is one of Low,
Medium, High. -/
theorem C9_total_postcondition (i : Input) :
    ((predict_loan_default i).1 = 0 ∨ (predict_loan_default i).1 = 1) ∧
    1/10 ≤ (predict_loan_default i).2.1 ∧ (predict_loan_default i).2.1 ≤ 9/10 ∧
    ((predict_loan_default i).2.2 = "Low" ∨ (predict_loan_default i).2.2 = "Medium" ∨
      (predict_loan_default i).2.2 = "High") := by
  rw [predict_loan_default]
  cases htp : tryPredict i with
  | none =>
    simp only [Option.getD_none]
    exact ⟨by simp, by norm_num, by norm_num, by simp⟩
  | some v =>
    simp only [Option.getD_some]
    obtain ⟨la, ai, ir, el, fs, dt, oa, rfl⟩ := tryPredict_some i v htp
    exact computeTriple_post la ai ir el fs dt oa

/-- C10: `predict_loan_default` never propagates an exception: every
failure inside the `try` block — in particular a present field whose value
cannot be converted to a number, and an annual income of zero making the
division raise — lands in the `except` clause, which returns exactly the
constant triple (0, 0.3, "Low"). -/
theorem C10_exception_fallback :
    (∀ d : LoanDict, tryPredictDict d = none →
        predict_loan_default (Input.dict d) = (0, 3/10, "Low")) ∧
    (∀ (d : LoanDict) (v : PyVal), d.loanAmount = some v → v.toFloat = none →
        predict_loan_default (Input.dict d) = (0, 3/10, "Low")) ∧
    (∀ (d : LoanDict) (v : PyVal), d.annualIncome = some v → v.toFloat = some 0 →
        predict_loan_default (Input.dict d) = (0, 3/10, "Low")) := by
  refine ⟨?_, ?_, ?_⟩
  · intro d hd
    rw [predict_loan_default]
    simp only [tryPredict]
    rw [hd]
    rfl
  · intro d v hv hvf
    rw [predict_loan_default]
    simp only [tryPredict, tryPredictDict]
    rw [show extractFloat d.loanAmount 10000 = none by rw [hv]; exact hvf]
    rfl
  · intro d v hv hvf
    rw [predict_loan_default]
    simp only [tryPredict]
    rw [tryPredictDict_ai_zero d (by rw [hv]; exact hvf)]
    rfl

/-- Witness for C10: a dictionary whose LoanAmount is present but
non-numeric yields exactly the constant fallback triple. -/
theorem C10_exception_fallback_witness :
    predict_loan_default (Input.dict
        ⟨some PyVal.bad, none, none, none, none, none, none, none⟩) =
      (0, 3/10, "Low") :=
  C10_exception_fallback.2.1
    ⟨some PyVal.bad, none, none, none, none, none, none, none⟩ PyVal.bad rfl rfl

/-- C3: `verify_reset_token` fails closed.  (i) Whenever verification
succeeds at time `now` with some email, the token is exactly a token
issued for that email under the same secret and the fixed salt
`'password-reset-salt'` (so the signature is valid) and its age is within
the 3600-second window.  (ii) Any one-character mutation of a validly
issued token is rejected, at every verification time.  (iii) A validly
issued token whose age exceeds 3600 seconds is rejected.  In every failure
case the result is the failure value `none`, never a partial success. -/
theorem C3_verify_fail_closed :
    (∀ (secret token : String) (now : ℕ) (email : String),
        verify_reset_token secret token now = some email →
        ∃ ts, token = issueResetToken secret email ts ∧ now - ts ≤ 3600) ∧
    (∀ (secret email : String) (ts now i : ℕ) (c : Char),
        strMutate (issueResetToken secret email ts) i c ≠
          issueResetToken secret email ts →
        verify_reset_token secret
          (strMutate (issueResetToken secret email ts) i c) now = none) ∧
    (∀ (secret email : String) (ts now : ℕ),
        now - ts > 3600 →
        verify_reset_token secret (issueResetToken secret email ts) now = none) := by
  refine ⟨?_, ?_, ?_⟩
  · intro secret token now email h
    exact serVerify_sound secret _ 3600 token now email h
  · intro secret email ts now i c hne
    exact serVerify_mutate secret _ email ts now 3600 i c hne
  · intro secret email ts now h
    exact serVerify_expired secret _ email ts now 3600 h

/-- Witness for C3 at a concrete expired token: issued at time 0,
verified at time 4000, which is beyond the 3600-second window. -/
theorem C3_verify_fail_closed_witness :
    4000 - 0 > 3600 ∧
    verify_reset_token "server-secret" (issueResetToken "server-secret" "a@b.c" 0)
      4000 = none :=
  ⟨by norm_num,
    C3_verify_fail_closed.2.2 "server-secret" "a@b.c" 0 4000 (by norm_num)⟩

/-- C4: Round trip — for every email and every secret, issuing a token
(`serializer.dumps(email, salt='password-reset-salt')`) and immediately
verifying it with `verify_reset_token` returns exactly that email. -/
theorem C4_round_trip (secret email : String) (now : ℕ) :
    verify_reset_token secret (issueResetToken secret email now) now = some email :=
  serVerify_serDumps secret "password-reset-salt" email now now 3600 (by omega)

/-- C5 counterexample: the claim asserts the observable forgot-password
response is identical whether or not the email is registered.  With mail
not configured, submitting a registered email flashes the generic message
AND the reset link, while an unregistered email flashes only the generic
message — the responses differ, so the response does depend on
registration status. -/
theorem C5_counterexample :
    forgotPasswordFlashes [] "bob@example.com" "URL" false false ≠
      forgotPasswordFlashes [⟨"bob", "bob@example.com", "hash"⟩]
        "bob@example.com" "URL" false false := by
  decide

/-- C5 (amended): the generic confirmation message is always the first
flashed message, regardless of registration status, and when the email is
not registered it is the only message; but when the email is registered
`send_password_reset_email` flashes additional messages (the reset link or
a delivery notice), so the full observable response does reveal
registration status. -/
theorem C5_generic_message_always (store : List UserRec)
    (email resetUrl : String) (mailConfigured sendOk : Bool) :
    (forgotPasswordFlashes store email resetUrl mailConfigured sendOk).head? =
      some genericResetMsg ∧
    (findByEmail store email = none →
      forgotPasswordFlashes store email resetUrl mailConfigured sendOk =
        [genericResetMsg]) := by
  constructor
  · rfl
  · intro h
    rw [forgotPasswordFlashes, h]

/-- Witness for C5 (amended) on the empty store, where no email is
registered. -/
theorem C5_generic_message_always_witness :
    findByEmail [] "bob@example.com" = none ∧
    forgotPasswordFlashes [] "bob@example.com" "URL" false false =
      [genericResetMsg] :=
  ⟨rfl, (C5_generic_message_always [] "bob@example.com" "URL" false false).2 rfl⟩

/-- C6: For every JSON dictionary sent to the authenticated scoring
endpoint, if some field among LoanAmount, AnnualIncome, InterestRate,
FicoScore (checked in that order) is absent or empty (falsy), the endpoint
returns the 400-class error naming the first such field and the scoring
formula is not executed; if all four are present and non-empty, the
formula is executed and its triple returned.  The third conjunct pins the
meaning of the check: no field is missing exactly when each of the four
fields is present and non-falsy. -/
theorem C6_required_field_check (d : LoanDict) :
    (∀ f, firstMissing d = some f →
        predictRoute d = PredictResponse.badRequest ("Missing required field: " ++ f)) ∧
    (firstMissing d = none →
        predictRoute d = PredictResponse.ok
          (predict_loan_default (Input.dict d)).1
          (predict_loan_default (Input.dict d)).2.1
          (predict_loan_default (Input.dict d)).2.2) ∧
    (firstMissing d = none ↔
        fieldMissing d.loanAmount = false ∧ fieldMissing d.annualIncome = false ∧
        fieldMissing d.interestRate = false ∧ fieldMissing d.ficoScore = false) := by
  refine ⟨?_, ?_, ?_⟩
  · intro f hf
    rw [predictRoute, hf]
  · intro hf
    rw [predictRoute, hf]
  · rw [firstMissing]
    split_ifs with g1 g2 g3 g4 <;> simp_all

/-- Witness for C6: a dictionary with LoanAmount and AnnualIncome present
and non-empty but InterestRate absent is rejected with the error naming
InterestRate. -/
theorem C6_required_field_check_witness :
    firstMissing ⟨some (PyVal.numeric 1000 1000), some (PyVal.numeric 40000 40000),
        none, some (PyVal.numeric 700 700), none, none, none, none⟩ =
      some "InterestRate" ∧
    predictRoute ⟨some (PyVal.numeric 1000 1000), some (PyVal.numeric 40000 40000),
        none, some (PyVal.numeric 700 700), none, none, none, none⟩ =
      PredictResponse.badRequest ("Missing required field: " ++ "InterestRate") :=
  ⟨rfl,
    (C6_required_field_check ⟨some (PyVal.numeric 1000 1000),
        some (PyVal.numeric 40000 40000), none, some (PyVal.numeric 700 700),
        none, none, none, none⟩).1 "InterestRate" rfl⟩

/-- C7: When the current identity is anonymous, the `/predict` endpoint
answers with the Unauthorized-class response, and the response does not
depend on the submitted scoring input — `predict_loan_default` is never
invoked. -/
theorem C7_unauthenticated_rejected (d : LoanDict) :
    predictEndpoint false d = PredictResponse.unauthorized ∧
    ∀ d' : LoanDict, predictEndpoint false d = predictEndpoint false d' :=
  ⟨rfl, fun _ => rfl⟩

/-- C8 counterexample: the claim asserts that for every pair of
registration attempts with the same fresh username, regardless of the
emails used, exactly one attempt succeeds.  Starting from a store holding
a user with email `taken@x.com`, two attempts to register the fresh
username `alice` with that same email both fail with the email conflict —
zero successes, refuting the claim as stated. -/
theorem C8_counterexample :
    (register [⟨"bob", "taken@x.com", "h0"⟩] "alice" "taken@x.com" "h1").1 =
      RegResult.emailConflict ∧
    (register (register [⟨"bob", "taken@x.com", "h0"⟩] "alice" "taken@x.com" "h1").2
      "alice" "taken@x.com" "h2").1 = RegResult.emailConflict := by
  constructor <;> decide

/-- C8 (amended): for every pair of registration attempts with the same
username, starting from a store not containing that username and not
containing the first attempt's email, the first attempt succeeds, the
second fails with the username Conflict error (whatever its email), and
afterwards exactly one user with that username exists. -/
theorem C8_duplicate_username (store : List UserRec) (u e1 e2 h1 h2 : String)
    (hu : ∀ r ∈ store, r.username ≠ u) (he : ∀ r ∈ store, r.email ≠ e1) :
    (register store u e1 h1).1 = RegResult.success ∧
    (register (register store u e1 h1).2 u e2 h2).1 = RegResult.usernameConflict ∧
    ((register (register store u e1 h1).2 u e2 h2).2.filter
      (fun r => r.username = u)).length = 1 := by
  have hfu : findByUsername store u = none := by
    rw [findByUsername, List.find?_eq_none]
    intro r hr
    simp [hu r hr]
  have hfe : findByEmail store e1 = none := by
    rw [findByEmail, List.find?_eq_none]
    intro r hr
    simp [he r hr]
  have hreg1 : register store u e1 h1 = (RegResult.success, store ++ [⟨u, e1, h1⟩]) := by
    rw [register, hfu, hfe]
    rfl
  have hfu2 : findByUsername (store ++ [⟨u, e1, h1⟩]) u = some ⟨u, e1, h1⟩ := by
    rw [findByUsername, List.find?_append]
    have hbase : store.find? (fun r => r.username = u) = none := hfu
    rw [hbase]
    simp [List.find?]
  have hreg2 : register (store ++ [⟨u, e1, h1⟩]) u e2 h2 =
      (RegResult.usernameConflict, store ++ [⟨u, e1, h1⟩]) := by
    rw [register, hfu2]
    rfl
  refine ⟨by rw [hreg1], by rw [hreg1, hreg2], ?_⟩
  rw [hreg1, hreg2]
  simp only [List.filter_append]
  have hnil : store.filter (fun r => r.username = u) = [] := by
    rw [List.filter_eq_nil_iff]
    intro r hr
    simp [hu r hr]
  rw [hnil]
  simp

/-- Witness for C8 (amended) on the empty store with username `alice`. -/
theorem C8_duplicate_username_witness :
    (register [] "alice" "a@x.com" "h1").1 = RegResult.success ∧
    (register (register [] "alice" "a@x.com" "h1").2 "alice" "b@x.com" "h2").1 =
      RegResult.usernameConflict ∧
    ((register (register [] "alice" "a@x.com" "h1").2 "alice" "b@x.com" "h2").2.filter
      (fun r => r.username = "alice")).length = 1 :=
  C8_duplicate_username [] "alice" "a@x.com" "b@x.com" "h1" "h2"
    (by simp) (by simp)

end LoanApp
